import Mathlib

/-!
Shallow embedding of the BoviCare/RAG core: the relevance reranker
(src/rag.py), the hybrid-search fusion weighting (src/vector_service.py),
and the rubric evaluation engine (src/vetbench_healthbench_style.py).
Python floats are modelled as rationals; fallible operations return
Option/Except; external judge behaviour is modelled as explicit data.
-/

/-! ## Relevance reranker (src/rag.py, rerank_documents_with_openai / score_document) -/

/-- Outcome of the plain-text fallback call inside score_document
(src/rag.py lines 72-96): either a reply whose stripped content parses
as a float (or does not), or the fallback call itself raised. -/
inductive FallbackOutcome where
  | reply (parsedFloat : Option ℚ)
  | failed
deriving DecidableEq

/-- One judge interaction for one document in score_document
(src/rag.py lines 44-96): the structured call returns a parsed score,
returns a falsy/parse-less response, or raises and the fallback runs. -/
inductive JudgeReply where
  | structuredOk (relevance_score : ℚ)
  | structuredEmpty
  | structuredError (fb : FallbackOutcome)
deriving DecidableEq

/-- score_document (src/rag.py lines 35-96): the score paired with the
document.  Structured path returns the parsed relevance_score as-is (no
clamping); a missing score yields 0.0; on a structured error the fallback
float-parse result is returned as-is, and 0.0 when it cannot be parsed or
the fallback also raises. -/
def score_document : JudgeReply → ℚ
  | .structuredOk s => s
  | .structuredEmpty => 0
  | .structuredError (.reply (some s)) => s
  | .structuredError (.reply none) => 0
  | .structuredError .failed => 0

/-- Stable insertion of a scored pair into a descending-sorted list: the
new element goes before the first element whose key it is ≥, i.e. before
later-input elements with equal keys.  Together with pySortDesc this is
extensionally Python's stable `sorted(..., key=lambda x: x[0], reverse=True)`
from src/rag.py line 101. -/
def insertDesc (x : ℚ × α) : List (ℚ × α) → List (ℚ × α)
  | [] => [x]
  | y :: l => if y.1 ≤ x.1 then x :: y :: l else y :: insertDesc x l

/-- Stable descending sort by the first component (Python's
`sorted(scored_docs, key=lambda x: x[0], reverse=True)`). -/
def pySortDesc : List (ℚ × α) → List (ℚ × α)
  | [] => []
  | a :: l => insertDesc a (pySortDesc l)

/-- rerank_documents_with_openai (src/rag.py lines 26-103): with no client
or no documents the input is returned unchanged; otherwise every document
is scored, the pairs are stably sorted descending by score, and the
documents are extracted.  The judge is modelled as a per-document reply. -/
def rerank_documents_with_openai (openai_client : Option Unit)
    (judge : α → JudgeReply) (documents : List α) : List α :=
  if openai_client.isNone || documents.isEmpty then documents
  else (pySortDesc (documents.map (fun d => (score_document (judge d), d)))).map Prod.snd

theorem insertDesc_perm (x : ℚ × α) (l : List (ℚ × α)) :
    List.Perm (insertDesc x l) (x :: l) := by
  induction l with
  | nil => simp [insertDesc]
  | cons y t ih =>
    simp only [insertDesc]
    split
    · exact List.Perm.refl _
    · exact ((ih.cons y).trans (List.Perm.swap x y t))

theorem pySortDesc_perm (l : List (ℚ × α)) : List.Perm (pySortDesc l) l := by
  induction l with
  | nil => simp [pySortDesc]
  | cons a t ih =>
    simpa [pySortDesc] using (insertDesc_perm a (pySortDesc t)).trans (ih.cons a)

theorem insertDesc_filter (x : ℚ × α) (l : List (ℚ × α)) (k : ℚ) :
    (insertDesc x l).filter (fun p => decide (p.1 = k)) =
      if x.1 = k then x :: l.filter (fun p => decide (p.1 = k))
      else l.filter (fun p => decide (p.1 = k)) := by
  induction l with
  | nil =>
    by_cases hx : x.1 = k <;> simp [insertDesc, List.filter, hx]
  | cons y t ih =>
    simp only [insertDesc]
    by_cases hle : y.1 ≤ x.1
    · rw [if_pos hle]
      by_cases hx : x.1 = k <;> by_cases hy : y.1 = k <;>
        simp [List.filter, hx, hy]
    · rw [if_neg hle]
      have hgt : x.1 < y.1 := lt_of_not_le hle
      by_cases hx : x.1 = k
      · have hy : ¬ y.1 = k := by
          intro hyk; exact absurd (hx ▸ hyk ▸ hgt) (lt_irrefl _)
        simp [List.filter, hx, hy, ih]
      · by_cases hy : y.1 = k <;> simp [List.filter, hx, hy, ih]

theorem pySortDesc_filter (l : List (ℚ × α)) (k : ℚ) :
    (pySortDesc l).filter (fun p => decide (p.1 = k)) =
      l.filter (fun p => decide (p.1 = k)) := by
  induction l with
  | nil => simp [pySortDesc]
  | cons a t ih =>
    simp only [pySortDesc, insertDesc_filter, ih]
    by_cases ha : a.1 = k <;> simp [List.filter, ha]

theorem insertDesc_all_eq (x : ℚ × α) (l : List (ℚ × α)) (c : ℚ)
    (hx : x.1 = c) (hl : ∀ p ∈ l, p.1 = c) : insertDesc x l = x :: l := by
  cases l with
  | nil => rfl
  | cons y t =>
    have hy : y.1 = c := hl y (List.mem_cons_self y t)
    simp [insertDesc, hy, hx]

theorem pySortDesc_all_eq (l : List (ℚ × α)) (c : ℚ)
    (hl : ∀ p ∈ l, p.1 = c) : pySortDesc l = l := by
  induction l with
  | nil => rfl
  | cons a t ih =>
    have ht : ∀ p ∈ t, p.1 = c := fun p hp => hl p (List.mem_cons_of_mem a hp)
    rw [pySortDesc, ih ht,
      insertDesc_all_eq a t c (hl a (List.mem_cons_self a t)) ht]

theorem map_snd_scored (f : α → ℚ) (docs : List α) :
    (docs.map (fun d => (f d, d))).map Prod.snd = docs := by
  induction docs with
  | nil => rfl
  | cons d t ih => simp [ih]

theorem filter_map_snd (f : α → ℚ) (l : List (ℚ × α)) (k : ℚ)
    (hwf : ∀ p ∈ l, p.1 = f p.2) :
    (l.map Prod.snd).filter (fun d => decide (f d = k)) =
      (l.filter (fun p => decide (p.1 = k))).map Prod.snd := by
  induction l with
  | nil => rfl
  | cons p t ih =>
    have hp : p.1 = f p.2 := hwf p (List.mem_cons_self p t)
    have ht : ∀ q ∈ t, q.1 = f q.2 := fun q hq => hwf q (List.mem_cons_of_mem p hq)
    by_cases hk : f p.2 = k
    · have : p.1 = k := hp.trans hk
      simp [List.filter, hk, this, ih ht]
    · have : ¬ p.1 = k := fun h => hk (hp ▸ h)
      simp [List.filter, hk, this, ih ht]

/-! ## Hybrid search fusion weighting (src/vector_service.py, hybrid_search) -/

/-- Modelled from the spec: the weighted fusion performed by the vector
store's WeightedRanker is not part of the repository source; per the spec's
fusion rule each candidate's final score is a weighted combination of its
score in each sub-list (zero for a sub-list it is absent from), with the
i-th ranker weight applied to the i-th search request. -/
def weightedRankerFuse (w1 w2 s1 s2 : ℚ) : ℚ := w1 * s1 + w2 * s2

/-- hybrid_search (src/vector_service.py lines 221-259): the requests are
passed in the order [dense_request, sparse_request] while the ranker is
constructed as WeightedRanker(sparse_weight, dense_weight), so the first
weight (sparse_weight) lands on the dense request's score and the second
weight (dense_weight) on the sparse request's score. -/
def hybrid_search_fused_score (dense_weight sparse_weight denseScore sparseScore : ℚ) : ℚ :=
  weightedRankerFuse sparse_weight dense_weight denseScore sparseScore

/-! ## Category selection (src/vetbench_healthbench_style.py lines 391-409) -/

/-- Does the haystack start with the needle (character-list version of a
Python substring probe at one position). -/
def listLeadMatch : List Char → List Char → Bool
  | _, [] => true
  | [], _ :: _ => false
  | c :: cs, d :: ds => c == d && listLeadMatch cs ds

/-- Substring containment, modelling Python's `needle in hay` on str. -/
def listHasSub : List Char → List Char → Bool
  | [], needle => needle.isEmpty
  | c :: t, needle => listLeadMatch (c :: t) needle || listHasSub t needle

/-- Python `needle in hay` for strings. -/
def strContainsSub (hay needle : String) : Bool :=
  listHasSub hay.toList needle.toList

/-- Python's `str.lower()` over the basic latin range (all the category
keywords are ASCII).  Defined over the character list so that it
evaluates; Lean's own String.toLower is the identical per-character
mapping but is defined by well-founded recursion. -/
def pyLower (s : String) : String :=
  String.mk (s.toList.map Char.toLower)

/-- The five rubric category keys of VetBenchHealthBenchStyle.veterinary_rubrics. -/
inductive VetCategory where
  | mastitis_management
  | disease_outbreak
  | vaccination_schedule
  | emergency_care
  | economic_impact
deriving DecidableEq

/-- Category selection in evaluate_veterinary_response_healthbench_style
(src/vetbench_healthbench_style.py lines 391-409): an if/elif chain of
substring probes on query.lower(), defaulting to the mastitis_management
rubrics when nothing matches. -/
def selectRubricCategory (query : String) : VetCategory :=
  if strContainsSub (pyLower query) "mastitis" || strContainsSub (pyLower query) "dairy" then
    .mastitis_management
  else if strContainsSub (pyLower query) "outbreak" || strContainsSub (pyLower query) "disease" then
    .disease_outbreak
  else if strContainsSub (pyLower query) "vaccination" || strContainsSub (pyLower query) "vaccine" then
    .vaccination_schedule
  else if strContainsSub (pyLower query) "emergency" || strContainsSub (pyLower query) "urgent" then
    .emergency_care
  else if strContainsSub (pyLower query) "economic" || strContainsSub (pyLower query) "cost" then
    .economic_impact
  else
    .mastitis_management

/-- The spec's fixed, ordered keyword→category rule table. -/
def categoryKeywordRules : List (List String × VetCategory) :=
  [(["mastitis", "dairy"], .mastitis_management),
   (["outbreak", "disease"], .disease_outbreak),
   (["vaccination", "vaccine"], .vaccination_schedule),
   (["emergency", "urgent"], .emergency_care),
   (["economic", "cost"], .economic_impact)]

/-- First-match category selection as worded by the spec: select the
category of the first rule one of whose keywords occurs in the lowered
query, falling back to the default category. -/
def firstMatchCategory (query : String) : VetCategory :=
  match categoryKeywordRules.find?
      (fun r => r.1.any (fun kw => strContainsSub (pyLower query) kw)) with
  | some r => r.2
  | none => .mastitis_management

/-! ## Rubric scoring (src/vetbench_healthbench_style.py) -/

/-- VetBenchRubricItem (src/vetbench_healthbench_style.py lines 84-107). -/
structure VetBenchRubricItem where
  criterion : String
  points : ℚ
  tags : List String
deriving DecidableEq

/-- `sum(rubric_item.points for rubric_item in rubric_items if rubric_item.points > 0)`
(src/vetbench_healthbench_style.py lines 113-115). -/
def totalPossiblePoints (rubric_items : List VetBenchRubricItem) : ℚ :=
  ((rubric_items.filter (fun i => decide (0 < i.points))).map (fun i => i.points)).sum

/-- `sum(points for (item, grade) in zip(items, grades) if grade["criteria_met"])`
(src/vetbench_healthbench_style.py lines 120-126); each grading response's
criteria_met is modelled as a Bool, which grade_rubric_item guarantees. -/
def achievedPoints (rubric_items : List VetBenchRubricItem) (grading : List Bool) : ℚ :=
  (((rubric_items.zip grading).filter (fun p => p.2)).map (fun p => p.1.points)).sum

/-- calculate_vetbench_score (src/vetbench_healthbench_style.py lines
109-128).  Returns `.ok none` when no item has positive points (the
Python None), `.error ()` when the strict zip would raise on unequal
lengths, and the achieved/total ratio otherwise. -/
def calculate_vetbench_score (rubric_items : List VetBenchRubricItem)
    (grading : List Bool) : Except Unit (Option ℚ) :=
  if totalPossiblePoints rubric_items = 0 then .ok none
  else if rubric_items.length = grading.length then
    .ok (some (achievedPoints rubric_items grading / totalPossiblePoints rubric_items))
  else .error ()

/-- Order-preserving deduplication keeping first occurrences: iteration
order of the defaultdict of tags built in grade_veterinary_sample
(src/vetbench_healthbench_style.py lines 323-329). -/
def dedupFirstAux (seen : List String) : List String → List String
  | [] => []
  | a :: l => if seen.contains a then dedupFirstAux seen l
              else a :: dedupFirstAux (a :: seen) l

def dedupFirst (l : List String) : List String := dedupFirstAux [] l

/-- One Python `dict[k] = v` on an insertion-ordered association list:
an existing key keeps its position and gets the new value, a new key is
appended. -/
def dictUpdate (m : List (String × ℚ)) (k : String) (v : ℚ) : List (String × ℚ) :=
  if m.any (fun p => p.1 == k) then
    m.map (fun p => if p.1 == k then (p.1, v) else p)
  else m ++ [(k, v)]

/-- Python `dict.update` folded over a list of key/value pairs. -/
def dictUpdates (m : List (String × ℚ)) : List (String × ℚ) → List (String × ℚ)
  | [] => m
  | (k, v) :: rest => dictUpdates (dictUpdate m k v) rest

/-- The rubric-tag score dictionary of grade_veterinary_sample
(src/vetbench_healthbench_style.py lines 322-337): tags are visited in
first-occurrence order; each tag's items are graded with
calculate_vetbench_score and tags whose score is None are skipped. -/
def tagGroup (rubric_items : List VetBenchRubricItem) (grading : List Bool)
    (t : String) : List (VetBenchRubricItem × Bool) :=
  (rubric_items.zip grading).filter (fun p => p.1.tags.contains t)

def rubricTagScores (rubric_items : List VetBenchRubricItem) (grading : List Bool) :
    List (String × ℚ) :=
  (dedupFirst ((rubric_items.map (fun i => i.tags)).flatten)).filterMap (fun t =>
    match calculate_vetbench_score ((tagGroup rubric_items grading t).map (fun p => p.1))
        ((tagGroup rubric_items grading t).map (fun p => p.2)) with
    | .ok (some s) => some (t, s)
    | _ => none)

/-- The metrics dictionary built by grade_veterinary_sample
(src/vetbench_healthbench_style.py lines 310-337).  `none` models an
AssertionError escaping the call: the `assert overall_score is not None`,
the duplicate example-tag assert, and the per-item duplicate-tag assert;
a strict-zip length error is likewise an escaping exception. -/
def grade_sample_metrics (rubric_items : List VetBenchRubricItem)
    (grading : List Bool) (example_tags : List String) :
    Option (List (String × ℚ)) :=
  match calculate_vetbench_score rubric_items grading with
  | .ok (some overall) =>
    if example_tags.Nodup then
      if rubric_items.all (fun i => decide i.tags.Nodup) then
        some (dictUpdates
          (dictUpdates [("overall_score", overall)]
            (example_tags.map (fun t => (t, overall))))
          (rubricTagScores rubric_items grading))
      else none
    else none
  | _ => none

/-- Lookup in the insertion-ordered metrics dictionary. -/
def metricsLookup (m : List (String × ℚ)) (k : String) : Option ℚ :=
  (m.find? (fun p => p.1 == k)).map (fun p => p.2)

/-- The overall_score field of the VetBenchResult returned by
evaluate_veterinary_response_healthbench_style
(src/vetbench_healthbench_style.py lines 417-448): on success it is
metrics["overall_score"]; any exception from grading is caught and a
result with overall_score 0.0 and empty metrics is returned. -/
def evaluate_overall_score (rubric_items : List VetBenchRubricItem)
    (grading : List Bool) (example_tags : List String) : ℚ :=
  match grade_sample_metrics rubric_items grading example_tags with
  | some m => (metricsLookup m "overall_score").getD 0
  | none => 0

/-- The concrete scenario of the spec: items (+5 met), (+4 unmet), (−2 unmet). -/
def concreteItems : List VetBenchRubricItem :=
  [⟨"mentions isolation", 5, []⟩,
   ⟨"recommends vet contact", 4, []⟩,
   ⟨"is overly verbose", -2, []⟩]

/-! ## Judge-range predicate for the reranker -/

/-- The numeric values a judge interaction feeds into score_document
are within [0,1]: the structured relevance_score, or the parsed
fallback float. -/
def judgeNumbersInRange : JudgeReply → Prop
  | .structuredOk s => 0 ≤ s ∧ s ≤ 1
  | .structuredError (.reply (some s)) => 0 ≤ s ∧ s ≤ 1
  | _ => True

/-! ## Claim theorems (reranker, fusion, category selection, score formula) -/

/-- C1: for equal-length item and verdict lists with a nonzero positive-point
total, calculate_vetbench_score is the sum of points of met items (negative
points included) divided by the sum of positive points; on the concrete
scenario [("mentions isolation",+5,met), ("recommends vet contact",+4,unmet),
("is overly verbose",−2,unmet)] this gives total_possible 9, achieved 5 and
overall score 5/9. -/
theorem calculate_vetbench_score_spec :
    (∀ (rubric_items : List VetBenchRubricItem) (grading : List Bool),
      rubric_items.length = grading.length →
      totalPossiblePoints rubric_items ≠ 0 →
      calculate_vetbench_score rubric_items grading =
        .ok (some (achievedPoints rubric_items grading / totalPossiblePoints rubric_items))) ∧
    totalPossiblePoints concreteItems = 9 ∧
    achievedPoints concreteItems [true, false, false] = 5 ∧
    calculate_vetbench_score concreteItems [true, false, false] = .ok (some (5 / 9)) := by
  have h9 : totalPossiblePoints concreteItems = 9 := by
    norm_num [totalPossiblePoints, concreteItems, List.filter_cons, List.filter_nil]
  have h5 : achievedPoints concreteItems [true, false, false] = 5 := by
    norm_num [achievedPoints, concreteItems, List.zip, List.zipWith,
      List.filter_cons, List.filter_nil]
  refine ⟨?_, h9, h5, ?_⟩
  · intro rubric_items grading hlen htp
    simp [calculate_vetbench_score, htp, hlen]
  · unfold calculate_vetbench_score
    rw [h5, h9]
    norm_num [concreteItems]

/-- Witness for C1 at the spec's concrete scenario. -/
theorem calculate_vetbench_score_spec_witness :
    concreteItems.length = ([true, false, false] : List Bool).length ∧
    totalPossiblePoints concreteItems ≠ 0 ∧
    calculate_vetbench_score concreteItems [true, false, false] =
      .ok (some (achievedPoints concreteItems [true, false, false] /
        totalPossiblePoints concreteItems)) := by
  have htp : totalPossiblePoints concreteItems ≠ 0 := by
    norm_num [totalPossiblePoints, concreteItems, List.filter_cons, List.filter_nil]
  exact ⟨rfl, htp,
    calculate_vetbench_score_spec.1 concreteItems [true, false, false] rfl htp⟩

/-- C3: the hybrid fusion weighting is swapped relative to the claim.
hybrid_search passes WeightedRanker(sparse_weight, dense_weight) against
the request order [dense, sparse], so the fused score is
sparse_weight·denseScore + dense_weight·sparseScore, and raising
dense_weight from 0 to 2 with sparse_weight fixed at 1 drops a
dense-only candidate (scores 1/0) below a sparse-only candidate
(scores 0/1), decreasing its relative fused rank. -/
theorem hybrid_search_weight_swap :
    (∀ dense_weight sparse_weight denseScore sparseScore : ℚ,
      hybrid_search_fused_score dense_weight sparse_weight denseScore sparseScore =
        sparse_weight * denseScore + dense_weight * sparseScore) ∧
    hybrid_search_fused_score 0 1 1 0 > hybrid_search_fused_score 0 1 0 1 ∧
    hybrid_search_fused_score 2 1 1 0 < hybrid_search_fused_score 2 1 0 1 :=
  ⟨fun _ _ _ _ => rfl,
    by norm_num [hybrid_search_fused_score, weightedRankerFuse],
    by norm_num [hybrid_search_fused_score, weightedRankerFuse]⟩

/-- C5 counterexample: a judge whose structured reply carries
relevance_score 2 makes score_document return 2, outside [0,1] — no
clamping is applied on any path. -/
theorem score_document_out_of_range :
    score_document (.structuredOk 2) = 2 ∧
    ¬ score_document (.structuredOk 2) ≤ 1 := by
  constructor
  · rfl
  · decide

/-- C5 amended: every score produced by score_document lies in [0,1]
provided the judge's own numbers (structured relevance_score, parsed
fallback float) lie in [0,1]; all failure defaults are 0.0, which is in
range. -/
theorem score_document_range_amended (r : JudgeReply)
    (h : judgeNumbersInRange r) :
    0 ≤ score_document r ∧ score_document r ≤ 1 := by
  cases r with
  | structuredOk s => exact h
  | structuredEmpty => constructor <;> norm_num [score_document]
  | structuredError fb =>
    cases fb with
    | reply o =>
      cases o with
      | some s => exact h
      | none => constructor <;> norm_num [score_document]
    | failed => constructor <;> norm_num [score_document]

/-- Witness for the amended C5 at a concrete in-range structured reply. -/
theorem score_document_range_amended_witness :
    0 ≤ score_document (.structuredOk (1 / 2)) ∧
    score_document (.structuredOk (1 / 2)) ≤ 1 :=
  score_document_range_amended (.structuredOk (1 / 2))
    (show (0 : ℚ) ≤ 1 / 2 ∧ (1 : ℚ) / 2 ≤ 1 by constructor <;> norm_num)

/-- C7: with no judge client, or with an empty candidate list, the
reranker returns its input unchanged. -/
theorem rerank_noop_empty_or_unconfigured :
    (∀ (α : Type) (judge : α → JudgeReply) (documents : List α),
      rerank_documents_with_openai none judge documents = documents) ∧
    (∀ (α : Type) (client : Option Unit) (judge : α → JudgeReply),
      rerank_documents_with_openai client judge ([] : List α) = []) := by
  constructor
  · intro α judge documents
    simp [rerank_documents_with_openai]
  · intro α client judge
    simp [rerank_documents_with_openai]

/-- C8: the reranker's descending sort is stable — with a judge that
scores every candidate identically the input order is returned exactly,
and in general the subsequence of candidates at any fixed score is
preserved. -/
theorem rerank_stable_ties :
    (∀ (α : Type) (judge : α → JudgeReply) (documents : List α) (c : ℚ),
      (∀ d ∈ documents, score_document (judge d) = c) →
      rerank_documents_with_openai (some ()) judge documents = documents) ∧
    (∀ (α : Type) (judge : α → JudgeReply) (documents : List α) (k : ℚ),
      (rerank_documents_with_openai (some ()) judge documents).filter
          (fun d => decide (score_document (judge d) = k)) =
        documents.filter (fun d => decide (score_document (judge d) = k))) := by
  constructor
  · intro α judge documents c hc
    unfold rerank_documents_with_openai
    split
    · rfl
    · have hall : ∀ p ∈ documents.map (fun d => (score_document (judge d), d)),
          p.1 = c := by
        intro p hp
        rcases List.mem_map.mp hp with ⟨d, hd, rfl⟩
        exact hc d hd
      rw [pySortDesc_all_eq _ c hall, map_snd_scored]
  · intro α judge documents k
    unfold rerank_documents_with_openai
    split
    · rfl
    · have hwf1 : ∀ p ∈ documents.map (fun d => (score_document (judge d), d)),
          p.1 = score_document (judge p.2) := by
        intro p hp
        rcases List.mem_map.mp hp with ⟨d, hd, rfl⟩
        rfl
      have hwf2 : ∀ p ∈ pySortDesc (documents.map (fun d => (score_document (judge d), d))),
          p.1 = score_document (judge p.2) := fun p hp =>
        hwf1 p ((pySortDesc_perm _).mem_iff.mp hp)
      rw [filter_map_snd (fun d => score_document (judge d)) _ k hwf2,
        pySortDesc_filter,
        ← filter_map_snd (fun d => score_document (judge d)) _ k hwf1,
        map_snd_scored]

/-- Witness for C8 with two documents all scored 1. -/
theorem rerank_stable_ties_witness :
    rerank_documents_with_openai (some ()) (fun _ => JudgeReply.structuredOk 1)
      ["a", "b"] = ["a", "b"] :=
  rerank_stable_ties.1 String (fun _ => .structuredOk 1) ["a", "b"] 1 (fun _ _ => rfl)

/-- C9: for every client, judge behaviour and document list, the
reranker's output is a permutation of the exact input documents; the
documents are carried through untouched (the score lives only in the
transient pairs, never written into a document). -/
theorem rerank_perm_frame (α : Type) (client : Option Unit)
    (judge : α → JudgeReply) (documents : List α) :
    List.Perm (rerank_documents_with_openai client judge documents) documents := by
  unfold rerank_documents_with_openai
  split
  · exact List.Perm.refl _
  · have h2 := (pySortDesc_perm
      (documents.map (fun d => (score_document (judge d), d)))).map Prod.snd
    rw [map_snd_scored] at h2
    exact h2

/-- C6: category selection is the first-match function over the spec's
ordered keyword rule table (with mastitis_management as the fallback),
and a query containing "mastitis" always selects mastitis_management no
matter which later keywords it also contains. -/
theorem select_category_first_match :
    (∀ query, selectRubricCategory query = firstMatchCategory query) ∧
    (∀ query, strContainsSub (pyLower query) "mastitis" = true →
      selectRubricCategory query = VetCategory.mastitis_management) := by
  constructor
  · intro q
    simp only [selectRubricCategory, firstMatchCategory, categoryKeywordRules,
      List.find?, List.any_cons, List.any_nil, Bool.or_false]
    generalize strContainsSub (pyLower q) "mastitis" = b1
    generalize strContainsSub (pyLower q) "dairy" = b2
    generalize strContainsSub (pyLower q) "outbreak" = b3
    generalize strContainsSub (pyLower q) "disease" = b4
    generalize strContainsSub (pyLower q) "vaccination" = b5
    generalize strContainsSub (pyLower q) "vaccine" = b6
    generalize strContainsSub (pyLower q) "emergency" = b7
    generalize strContainsSub (pyLower q) "urgent" = b8
    generalize strContainsSub (pyLower q) "economic" = b9
    generalize strContainsSub (pyLower q) "cost" = b10
    revert b1 b2 b3 b4 b5 b6 b7 b8 b9 b10
    decide
  · intro q h
    simp [selectRubricCategory, h]

/-- Witness for C6: a query matching the mastitis rule and two later
rules still selects the earlier category. -/
theorem select_category_first_match_witness :
    strContainsSub (pyLower "Mastitis vaccine cost?") "mastitis" = true ∧
    selectRubricCategory "Mastitis vaccine cost?" = VetCategory.mastitis_management :=
  ⟨rfl, select_category_first_match.2 "Mastitis vaccine cost?" rfl⟩


/-! ## Undefined-score behaviour (C2 machinery) -/

theorem totalPossiblePoints_eq_zero (items : List VetBenchRubricItem)
    (h : ∀ i ∈ items, i.points ≤ 0) : totalPossiblePoints items = 0 := by
  unfold totalPossiblePoints
  have hnil : items.filter (fun i => decide (0 < i.points)) = [] := by
    rw [List.filter_eq_nil_iff]
    intro i hi
    simp only [decide_eq_true_eq, not_lt]
    exact h i hi
  rw [hnil]
  rfl

theorem totalPossiblePoints_ne_zero_mem (items : List VetBenchRubricItem)
    (h : totalPossiblePoints items ≠ 0) : ∃ i ∈ items, 0 < i.points := by
  by_contra hno
  push_neg at hno
  exact h (totalPossiblePoints_eq_zero items hno)

theorem metricsLookup_eq_none_iff (m : List (String × ℚ)) (t : String) :
    metricsLookup m t = none ↔ ∀ p ∈ m, p.1 ≠ t := by
  simp [metricsLookup, List.find?_eq_none]

theorem dictUpdate_key_mem (m : List (String × ℚ)) (k : String) (v : ℚ)
    (x : String) (hx : x ∈ (dictUpdate m k v).map Prod.fst) :
    x ∈ m.map Prod.fst ∨ x = k := by
  unfold dictUpdate at hx
  split at hx
  · rcases List.mem_map.mp hx with ⟨p, hp, rfl⟩
    rcases List.mem_map.mp hp with ⟨q, hq, rfl⟩
    left
    refine List.mem_map.mpr ⟨q, hq, ?_⟩
    by_cases hqk : q.1 == k <;> simp [hqk]
  · rcases List.mem_map.mp hx with ⟨p, hp, rfl⟩
    rcases List.mem_append.mp hp with hp | hp
    · exact Or.inl (List.mem_map.mpr ⟨p, hp, rfl⟩)
    · right
      simp only [List.mem_singleton] at hp
      rw [hp]

theorem dictUpdates_key_mem (kvs : List (String × ℚ)) (m : List (String × ℚ))
    (x : String) (hx : x ∈ (dictUpdates m kvs).map Prod.fst) :
    x ∈ m.map Prod.fst ∨ ∃ kv ∈ kvs, x = kv.1 := by
  induction kvs generalizing m with
  | nil => exact Or.inl hx
  | cons kv rest ih =>
    rcases kv with ⟨k, v⟩
    rcases ih (dictUpdate m k v) hx with h | h
    · rcases dictUpdate_key_mem m k v x h with h' | h'
      · exact Or.inl h'
      · exact Or.inr ⟨(k, v), List.mem_cons_self _ _, h'⟩
    · rcases h with ⟨kv', hkv', hx'⟩
      exact Or.inr ⟨kv', List.mem_cons_of_mem _ hkv', hx'⟩

theorem rubricTagScores_key_pos (items : List VetBenchRubricItem)
    (grading : List Bool) (t : String) (s : ℚ)
    (h : (t, s) ∈ rubricTagScores items grading) :
    ∃ i ∈ items, 0 < i.points ∧ t ∈ i.tags := by
  unfold rubricTagScores at h
  rcases List.mem_filterMap.mp h with ⟨t', htmem, hsome⟩
  rcases hmatch : calculate_vetbench_score
      ((tagGroup items grading t').map (fun p => p.1))
      ((tagGroup items grading t').map (fun p => p.2)) with he | o
  · rw [hmatch] at hsome
    simp at hsome
  · rcases o with _ | s'
    · rw [hmatch] at hsome
      simp at hsome
    · rw [hmatch] at hsome
      simp only [Option.some.injEq, Prod.mk.injEq] at hsome
      rcases hsome with ⟨rfl, rfl⟩
      have htp : totalPossiblePoints
          ((tagGroup items grading t').map (fun p => p.1)) ≠ 0 := by
        intro h0
        rw [calculate_vetbench_score, if_pos h0] at hmatch
        simp at hmatch
      rcases totalPossiblePoints_ne_zero_mem _ htp with ⟨i, hi, hpos⟩
      rcases List.mem_map.mp hi with ⟨p, hp, rfl⟩
      have hzip := List.mem_of_mem_filter hp
      have hfil := List.of_mem_filter hp
      have hmem := (List.of_mem_zip hzip).1
      refine ⟨p.1, hmem, hpos, ?_⟩
      exact (List.elem_iff).mp hfil

/-- A category whose rubric items carry no positive points. -/
def negOnlyItems : List VetBenchRubricItem :=
  [⟨"Is overly verbose", -2, ["axis:communication"]⟩]

/-- C2 counterexample: grading a category with no positive-point item
makes the engine report overall_score 0.0 — the `assert overall_score is
not None` raised inside grade_veterinary_sample is caught by
evaluate_veterinary_response_healthbench_style's handler, which returns a
result with overall_score 0.0, contradicting the claim that such a
category never produces a 0.0 overall score. -/
theorem evaluate_zero_on_all_negative_category :
    (∀ i ∈ negOnlyItems, i.points ≤ 0) ∧
    evaluate_overall_score negOnlyItems [false] ["dairy_management"] = 0 := by
  have hneg : ∀ i ∈ negOnlyItems, i.points ≤ 0 := by
    intro i hi
    simp only [negOnlyItems, List.mem_singleton] at hi
    subst hi
    norm_num
  refine ⟨hneg, ?_⟩
  have htp : totalPossiblePoints negOnlyItems = 0 := totalPossiblePoints_eq_zero _ hneg
  have hcal : calculate_vetbench_score negOnlyItems [false] = .ok none := by
    rw [calculate_vetbench_score, if_pos htp]
  simp [evaluate_overall_score, grade_sample_metrics, hcal]

/-- C2 amended: calculate_vetbench_score itself reports None (undefined,
distinct from 0.0) whenever no item has positive points, and
grade_veterinary_sample then refuses to produce metrics (its assertion
raises, modelled as none — the top-level evaluate handler converts this
to a 0.0 result with empty metrics, so the engine does emit 0.0 there);
a rubric tag with no positive-point item contributes no metric entry. -/
theorem undefined_score_amended :
    (∀ (items : List VetBenchRubricItem) (grading : List Bool),
      (∀ i ∈ items, i.points ≤ 0) →
      calculate_vetbench_score items grading = .ok none) ∧
    (∀ (items : List VetBenchRubricItem) (grading : List Bool) (etags : List String),
      (∀ i ∈ items, i.points ≤ 0) →
      grade_sample_metrics items grading etags = none) ∧
    (∀ (items : List VetBenchRubricItem) (grading : List Bool) (etags : List String)
        (m : List (String × ℚ)) (t : String),
      grade_sample_metrics items grading etags = some m →
      (∀ i ∈ items, t ∈ i.tags → ¬ 0 < i.points) →
      t ∉ etags → t ≠ "overall_score" →
      metricsLookup m t = none) := by
  have hcal : ∀ (items : List VetBenchRubricItem) (grading : List Bool),
      (∀ i ∈ items, i.points ≤ 0) →
      calculate_vetbench_score items grading = .ok none := by
    intro items grading h
    rw [calculate_vetbench_score, if_pos (totalPossiblePoints_eq_zero items h)]
  refine ⟨hcal, ?_, ?_⟩
  · intro items grading etags h
    simp [grade_sample_metrics, hcal items grading h]
  · intro items grading etags m t hm hnopos hnet hnov
    rw [metricsLookup_eq_none_iff]
    intro p hp hpt
    unfold grade_sample_metrics at hm
    split at hm
    case _ overall heq =>
      split at hm
      · split at hm
        · rw [Option.some.injEq] at hm
          subst hm
          have hkey : p.1 ∈ (dictUpdates
              (dictUpdates [("overall_score", overall)]
                (etags.map (fun tg => (tg, overall))))
              (rubricTagScores items grading)).map Prod.fst :=
            List.mem_map.mpr ⟨p, hp, rfl⟩
          rcases dictUpdates_key_mem _ _ _ hkey with h1 | h2
          · rcases dictUpdates_key_mem _ _ _ h1 with h3 | h4
            · simp only [List.map_cons, List.map_nil, List.mem_singleton] at h3
              exact hnov (hpt ▸ h3)
            · rcases h4 with ⟨kv, hkv, hx⟩
              rcases List.mem_map.mp hkv with ⟨e, he, rfl⟩
              exact hnet (by rw [← hpt, hx]; exact he)
          · rcases h2 with ⟨kv, hkv, hx⟩
            rcases kv with ⟨kt, ks⟩
            have hkt : kt = t := by rw [← hpt, hx]
            subst hkt
            rcases rubricTagScores_key_pos items grading kt ks hkv with ⟨i, hi, hpos, htag⟩
            exact hnopos i hi htag hpos
        · exact Option.noConfusion hm
      · exact Option.noConfusion hm
    case _ heq2 =>
      exact Option.noConfusion hm

/-- Witness for the amended C2 at the concrete all-negative category. -/
theorem undefined_score_amended_witness :
    (∀ i ∈ negOnlyItems, i.points ≤ 0) ∧
    grade_sample_metrics negOnlyItems [false] ["dairy_management"] = none := by
  have hneg : ∀ i ∈ negOnlyItems, i.points ≤ 0 := by
    intro i hi
    simp only [negOnlyItems, List.mem_singleton] at hi
    subst hi
    norm_num
  exact ⟨hneg, undefined_score_amended.2.1 negOnlyItems [false] ["dairy_management"] hneg⟩

/-! ## JSON parsing (parse_json_to_dict, src/vetbench_healthbench_style.py lines 73-82) -/

/-- A parsed JSON value (Python's json.loads result).  Objects keep their
members in order; duplicate keys are resolved last-wins at lookup time,
matching dict construction.  json.loads additionally accepts the
non-standard constants NaN, Infinity and -Infinity by default (its
parse_constant hook), yielding non-finite floats; ℚ has no such values,
so they get their own constructors.  Their float arithmetic never
matters here: downstream they are only ever inspected as non-dict,
non-bool values. -/
inductive JVal where
  | null
  | bool (b : Bool)
  | num (q : ℚ)
  | nan
  | infinity
  | negInfinity
  | str (s : String)
  | arr (xs : List JVal)
  | obj (fields : List (String × JVal))

/-- JSON insignificant whitespace (exactly space, tab, LF, CR). -/
def isJsonWs (c : Char) : Bool :=
  c == ' ' || c == '\t' || c == '\n' || c == '\r'

def skipWs : List Char → List Char
  | [] => []
  | c :: cs => if isJsonWs c then skipWs cs else c :: cs

/-- Python whitespace for str.strip() and the regex \s (adds \x0b, \x0c). -/
def isPyWs (c : Char) : Bool :=
  isJsonWs c || c == Char.ofNat 11 || c == Char.ofNat 12

def dropPyWs : List Char → List Char
  | [] => []
  | c :: cs => if isPyWs c then dropPyWs cs else c :: cs

/-- Python str.strip(). -/
def pyStrip (s : String) : String :=
  String.mk ((dropPyWs (dropPyWs s.toList).reverse).reverse)

def digitsToNat (ds : List Char) : Nat :=
  ds.foldl (fun n d => 10 * n + (d.toNat - 48)) 0

def hexVal (c : Char) : Option Nat :=
  if c.isDigit then some (c.toNat - 48)
  else if 'a' ≤ c && c ≤ 'f' then some (c.toNat - 87)
  else if 'A' ≤ c && c ≤ 'F' then some (c.toNat - 55)
  else none

def parseHex4 : List Char → Option (Nat × List Char)
  | a :: b :: c :: d :: t =>
    match hexVal a, hexVal b, hexVal c, hexVal d with
    | some x, some y, some z, some w => some (4096 * x + 256 * y + 16 * z + w, t)
    | _, _, _, _ => none
  | _ => none

/-- JSON string-literal body after the opening quote; standard escapes,
with \uXXXX mapped through Char.ofNat (astral surrogate pairing is not
modelled). -/
def parseStringBody : Nat → List Char → List Char → Option (String × List Char)
  | 0, _, _ => none
  | _ + 1, [], _ => none
  | f + 1, c :: t, acc =>
    if c == '"' then some (String.mk acc.reverse, t)
    else if c == '\\' then
      match t with
      | [] => none
      | e :: u =>
        if e == '"' then parseStringBody f u ('"' :: acc)
        else if e == '\\' then parseStringBody f u ('\\' :: acc)
        else if e == '/' then parseStringBody f u ('/' :: acc)
        else if e == 'b' then parseStringBody f u (Char.ofNat 8 :: acc)
        else if e == 'f' then parseStringBody f u (Char.ofNat 12 :: acc)
        else if e == 'n' then parseStringBody f u ('\n' :: acc)
        else if e == 'r' then parseStringBody f u ('\r' :: acc)
        else if e == 't' then parseStringBody f u ('\t' :: acc)
        else if e == 'u' then
          match parseHex4 u with
          | some (n, u2) => parseStringBody f u2 (Char.ofNat n :: acc)
          | none => none
        else none
    else if c.toNat < 32 then none
    else parseStringBody f t (c :: acc)

/-- Fractional part of a JSON number (empty when there is no '.'). -/
def parseFrac : List Char → Option (ℚ × List Char)
  | '.' :: t =>
    let fds := t.takeWhile Char.isDigit
    if fds.isEmpty then none
    else some ((digitsToNat fds : ℚ) / (10 : ℚ) ^ fds.length, t.dropWhile Char.isDigit)
  | cs => some (0, cs)

/-- Exponent part of a JSON number (0 when there is no e/E). -/
def parseExp : List Char → Option (ℤ × List Char)
  | [] => some (0, [])
  | c :: t =>
    if c == 'e' || c == 'E' then
      match t with
      | '+' :: u =>
        let eds := u.takeWhile Char.isDigit
        if eds.isEmpty then none
        else some ((digitsToNat eds : ℤ), u.dropWhile Char.isDigit)
      | '-' :: u =>
        let eds := u.takeWhile Char.isDigit
        if eds.isEmpty then none
        else some (-(digitsToNat eds : ℤ), u.dropWhile Char.isDigit)
      | _ =>
        let eds := t.takeWhile Char.isDigit
        if eds.isEmpty then none
        else some ((digitsToNat eds : ℤ), t.dropWhile Char.isDigit)
    else some (0, c :: t)

/-- A JSON number: -? int frac? exp?, with the no-leading-zero rule. -/
def parseNumber (cs : List Char) : Option (ℚ × List Char) :=
  let neg : Bool := match cs with | '-' :: _ => true | _ => false
  let cs1 := match cs with | '-' :: t => t | _ => cs
  let ids := cs1.takeWhile Char.isDigit
  let cs2 := cs1.dropWhile Char.isDigit
  if ids.isEmpty then none
  else if decide (1 < ids.length) && (ids.headD 'x' == '0') then none
  else
    match parseFrac cs2 with
    | none => none
    | some (f, cs3) =>
      match parseExp cs3 with
      | none => none
      | some (e, cs4) =>
        let mag : ℚ := ((digitsToNat ids : ℚ) + f) * (10 : ℚ) ^ e
        some (if neg then -mag else mag, cs4)

mutual

/-- One JSON value (fuel-indexed recursive-descent; fuel only bounds
nesting-driven recursion and 2·length+2 always suffices). -/
def jParseVal : Nat → List Char → Option (JVal × List Char)
  | 0, _ => none
  | f + 1, cs =>
    match skipWs cs with
    | 'n' :: 'u' :: 'l' :: 'l' :: t => some (.null, t)
    | 't' :: 'r' :: 'u' :: 'e' :: t => some (.bool true, t)
    | 'f' :: 'a' :: 'l' :: 's' :: 'e' :: t => some (.bool false, t)
    | '"' :: t =>
      (match parseStringBody (t.length + 1) t [] with
       | some (s, u) => some (.str s, u)
       | none => none)
    | '[' :: t =>
      (match skipWs t with
       | ']' :: u => some (.arr [], u)
       | _ =>
         match jParseElems f t with
         | some (xs, u) => some (.arr xs, u)
         | none => none)
    | c :: t =>
      if c == Char.ofNat 123 then
        match skipWs t with
        | d :: u =>
          if d == Char.ofNat 125 then some (.obj [], u)
          else
            (match jParseMembers f t with
             | some (ms, u2) => some (.obj ms, u2)
             | none => none)
        | [] => none
      else if c == '-' || c.isDigit then
        -- the number regex is tried first, then the -Infinity constant,
        -- matching CPython's scanner order
        match parseNumber (c :: t) with
        | some (q, u) => some (.num q, u)
        | none =>
          if listLeadMatch (c :: t) ("-Infinity".toList) then
            some (.negInfinity, (c :: t).drop 9)
          else none
      else if listLeadMatch (c :: t) ("NaN".toList) then
        some (.nan, (c :: t).drop 3)
      else if listLeadMatch (c :: t) ("Infinity".toList) then
        some (.infinity, (c :: t).drop 8)
      else none
    | [] => none

/-- Comma-separated array elements up to the closing bracket. -/
def jParseElems : Nat → List Char → Option (List JVal × List Char)
  | 0, _ => none
  | f + 1, cs =>
    match jParseVal f cs with
    | none => none
    | some (v, rest) =>
      match skipWs rest with
      | ',' :: t =>
        (match jParseElems f t with
         | some (vs, u) => some (v :: vs, u)
         | none => none)
      | ']' :: t => some ([v], t)
      | _ => none

/-- Comma-separated object members up to the closing brace. -/
def jParseMembers : Nat → List Char → Option (List (String × JVal) × List Char)
  | 0, _ => none
  | f + 1, cs =>
    match skipWs cs with
    | '"' :: t =>
      (match parseStringBody (t.length + 1) t [] with
       | none => none
       | some (k, rest) =>
         match skipWs rest with
         | ':' :: t2 =>
           (match jParseVal f t2 with
            | none => none
            | some (v, rest2) =>
              match skipWs rest2 with
              | ',' :: t3 =>
                (match jParseMembers f t3 with
                 | some (ms, u) => some ((k, v) :: ms, u)
                 | none => none)
              | d :: t3 =>
                if d == Char.ofNat 125 then some ([(k, v)], t3) else none
              | [] => none)
         | _ => none)
    | _ => none

end

/-- Python json.loads on a string: one JSON value, with only whitespace
allowed around it; none models a raised JSONDecodeError. -/
def json_loads (s : String) : Option JVal :=
  let cs := s.toList
  match jParseVal (2 * cs.length + 2) cs with
  | some (v, rest) => if (skipWs rest).isEmpty then some v else none
  | none => none

/-- The re.sub(r"^```json\s*|\s*```$", "", ·) of parse_json_to_dict: the
first alternative can only match a literal leading ```json (plus trailing
whitespace), the second only a trailing ``` (plus the maximal whitespace
run before it, the leftmost-match position of the anchored pattern). -/
def stripJsonFences (s : String) : String :=
  let cs := s.toList
  let cs1 := if listLeadMatch cs ("```json".toList)
             then dropPyWs (cs.drop 7) else cs
  let r := cs1.reverse
  let cs2 := if listLeadMatch r ("```".toList)
             then (dropPyWs (r.drop 3)).reverse else cs1
  String.mk cs2

/-- parse_json_to_dict (src/vetbench_healthbench_style.py lines 73-82):
strip the input, remove markdown ```json fences, json.loads it, and
return the empty dict on a JSONDecodeError. -/
def parse_json_to_dict (s : String) : JVal :=
  match json_loads (stripJsonFences (pyStrip s)) with
  | some v => v
  | none => .obj []

/-! ## Per-item grading retry loop (grade_rubric_item, src/vetbench_healthbench_style.py lines 274-302) -/

/-- Is this JVal a string equal to s (Python == between a str and a JSON
value: only a str can compare equal)? -/
def jvalIsStr (x : JVal) (s : String) : Bool :=
  match x with
  | .str t => t == s
  | _ => false

/-- Python dict lookup on an ordered member list: the last binding of a
duplicated key wins, as in dict construction by json.loads. -/
def jObjGetLast (fields : List (String × JVal)) (k : String) : Option JVal :=
  fields.foldl (fun acc p => if p.1 == k then some p.2 else acc) none

/-- Python `key in v`: key membership for a dict, substring for a str,
element membership for a list; a TypeError (none) for every other value. -/
def pyContains (key : String) (v : JVal) : Option Bool :=
  match v with
  | .obj fs => some (fs.any (fun p => p.1 == key))
  | .str s => some (strContainsSub s key)
  | .arr xs => some (xs.any (fun x => jvalIsStr x key))
  | _ => none

/-- Python `v[key]` with a string key: a dict lookup, a TypeError (none)
for any other value. -/
def pySubscript (v : JVal) (key : String) : Option JVal :=
  match v with
  | .obj fs => jObjGetLast fs key
  | _ => none

/-- `label is True or label is False`: only a genuine JSON boolean. -/
def isStrictBool : JVal → Bool
  | .bool _ => true
  | _ => false

/-- What one iteration of grade_rubric_item's while-loop does with one
judge reply. -/
inductive VerdictStep where
  | crash
  | retry
  | accept (d : JVal)

/-- One loop iteration of grade_rubric_item (src/vetbench_healthbench_style.py
lines 284-301): parse the reply, test `"criteria_met" in d`, read
d["criteria_met"], and break only on a strict boolean; a TypeError from
the membership test or the subscript escapes the loop (crash). -/
def checkVerdictReply (reply : String) : VerdictStep :=
  let d := parse_json_to_dict reply
  match pyContains "criteria_met" d with
  | none => .crash
  | some false => .retry
  | some true =>
    match pySubscript d "criteria_met" with
    | none => .crash
    | some label => if isStrictBool label then .accept d else .retry

/-- The retry loop run against a finite judge stub: the accepted verdict
together with how many judge calls were made; `.error ()` models an
escaping TypeError, `.ok none` a stub exhausted with the loop still
running. -/
def grade_rubric_item_loop : List String → Except Unit (Option (Nat × JVal))
  | [] => .ok none
  | r :: rest =>
    match checkVerdictReply r with
    | .crash => .error ()
    | .accept d => .ok (some (1, d))
    | .retry =>
      match grade_rubric_item_loop rest with
      | .ok (some (n, d)) => .ok (some (n + 1, d))
      | other => other

/-! ## Claim theorems: parse_json_to_dict and the retry loop -/

/-- C10: parse_json_to_dict is total — it strips the optional markdown
fences and returns the json.loads value for anything json.loads accepts
(including the non-standard NaN/Infinity constants it admits by default)
and the empty dict for anything else (the only exception path,
JSONDecodeError, is caught); concretely, a fenced verdict object parses,
the NaN and -Infinity constants parse, and garbage yields the empty
dict. -/
theorem parse_json_to_dict_total_spec :
    (∀ s, (∃ v, json_loads (stripJsonFences (pyStrip s)) = some v ∧
            parse_json_to_dict s = v) ∨
          (json_loads (stripJsonFences (pyStrip s)) = none ∧
            parse_json_to_dict s = JVal.obj [])) ∧
    parse_json_to_dict "```json\n\x7b\"criteria_met\": true, \"explanation\": \"ok\"\x7d\n```" =
      JVal.obj [("criteria_met", JVal.bool true), ("explanation", JVal.str "ok")] ∧
    parse_json_to_dict "NaN" = JVal.nan ∧
    parse_json_to_dict "-Infinity" = JVal.negInfinity ∧
    parse_json_to_dict "this is not json" = JVal.obj [] := by
  refine ⟨?_, rfl, rfl, rfl, rfl⟩
  intro s
  cases h : json_loads (stripJsonFences (pyStrip s)) with
  | some v => exact Or.inl ⟨v, rfl, by unfold parse_json_to_dict; rw [h]⟩
  | none => exact Or.inr ⟨rfl, by unfold parse_json_to_dict; rw [h]⟩

/-- C4 counterexample: the judge reply "3" is valid JSON without a
criteria_met field, yet the loop does not retry — `"criteria_met" in 3`
raises a TypeError that escapes grading — so a stub ["3", valid-verdict]
never reaches its valid second reply, against the claim that grading
retries until a strictly-boolean criteria_met arrives. -/
theorem grade_loop_crash_on_numeric_json :
    checkVerdictReply "3" = VerdictStep.crash ∧
    checkVerdictReply "\x7b\"criteria_met\": true\x7d" =
      VerdictStep.accept (JVal.obj [("criteria_met", JVal.bool true)]) ∧
    grade_rubric_item_loop ["3", "\x7b\"criteria_met\": true\x7d"] = .error () :=
  ⟨rfl, rfl, rfl⟩

/-- C4 amended: two retry-inducing replies followed by a valid verdict
make exactly three judge calls; any reply that fails to parse as JSON is
a retry (never accepted); an accepted verdict is necessarily a JSON
object whose criteria_met member is a strict boolean — but a reply
parsing to a non-dict JSON value raises instead of retrying, as for the
NaN constant json.loads accepts by default. -/
theorem grade_rubric_item_retry_amended :
    (∀ r1 r2 r3 d, checkVerdictReply r1 = .retry → checkVerdictReply r2 = .retry →
      checkVerdictReply r3 = .accept d →
      grade_rubric_item_loop [r1, r2, r3] = .ok (some (3, d))) ∧
    (∀ r, json_loads (stripJsonFences (pyStrip r)) = none →
      checkVerdictReply r = .retry) ∧
    (∀ r d, checkVerdictReply r = .accept d →
      ∃ fs label, d = JVal.obj fs ∧ jObjGetLast fs "criteria_met" = some label ∧
        isStrictBool label = true) ∧
    checkVerdictReply "NaN" = VerdictStep.crash := by
  refine ⟨?_, ?_, ?_, rfl⟩
  · intro r1 r2 r3 d h1 h2 h3
    simp [grade_rubric_item_loop, h1, h2, h3]
  · intro r h
    have hp : parse_json_to_dict r = JVal.obj [] := by
      unfold parse_json_to_dict
      rw [h]
    simp [checkVerdictReply, hp, pyContains]
  · intro r d h
    simp only [checkVerdictReply] at h
    cases hc : pyContains "criteria_met" (parse_json_to_dict r) with
    | none => rw [hc] at h; simp at h
    | some b =>
      rw [hc] at h
      cases b with
      | false => simp at h
      | true =>
        cases hs : pySubscript (parse_json_to_dict r) "criteria_met" with
        | none => rw [hs] at h; simp at h
        | some label =>
          rw [hs] at h
          by_cases hb : isStrictBool label = true
          · simp only [hb, if_true, VerdictStep.accept.injEq] at h
            cases hv : parse_json_to_dict r with
            | obj fs =>
              refine ⟨fs, label, ?_, ?_, hb⟩
              · rw [← h, hv]
              · rw [hv] at hs
                exact hs
            | null => rw [hv] at hs; exact Option.noConfusion hs
            | bool bb => rw [hv] at hs; exact Option.noConfusion hs
            | num q => rw [hv] at hs; exact Option.noConfusion hs
            | nan => rw [hv] at hs; exact Option.noConfusion hs
            | infinity => rw [hv] at hs; exact Option.noConfusion hs
            | negInfinity => rw [hv] at hs; exact Option.noConfusion hs
            | str st => rw [hv] at hs; exact Option.noConfusion hs
            | arr xs => rw [hv] at hs; exact Option.noConfusion hs
          · simp [hb] at h

/-- Witness for the amended C4: two unparsable replies then a valid
verdict give exactly three judge calls. -/
theorem grade_rubric_item_retry_amended_witness :
    checkVerdictReply "bad" = VerdictStep.retry ∧
    checkVerdictReply "also bad" = VerdictStep.retry ∧
    checkVerdictReply "\x7b\"criteria_met\": false\x7d" =
      VerdictStep.accept (JVal.obj [("criteria_met", JVal.bool false)]) ∧
    grade_rubric_item_loop ["bad", "also bad", "\x7b\"criteria_met\": false\x7d"] =
      .ok (some (3, JVal.obj [("criteria_met", JVal.bool false)])) :=
  ⟨rfl, rfl, rfl,
    grade_rubric_item_retry_amended.1 "bad" "also bad"
      "\x7b\"criteria_met\": false\x7d"
      (JVal.obj [("criteria_met", JVal.bool false)]) rfl rfl rfl⟩
